import Mathlib

/-!
Shallow embedding of the pywintrbl sources (`pywintrbl/registry_helpers.py` and
`pywintrbl/__main__.py`).  Python strings are modelled as `List Char`, registry
keys as explicit finite structures, and Python exceptions as an error type
threaded through `Except`.
-/

namespace Pywintrbl

/-- Model of the Python exceptions raised (or absorbed) by the sources.
`fileNotFound` is `FileNotFoundError`, `valueError` is the `ValueError` raised by
`get_friendly_hkey_path`, `indexError` is the `IndexError` of an out-of-range
list subscript, `assertionError` models a failing `assert` statement, and
`permissionError` is `PermissionError`. -/
inductive RegError where
  | fileNotFound
  | valueError
  | indexError
  | assertionError
  | permissionError
deriving DecidableEq, Repr

/-- Model of Python `str.split(sep)` for a one-character separator: the string is
cut at every occurrence of the separator, empty pieces are kept, and the result
list is never empty (splitting the empty string gives `[""]`). -/
def pySplit (sep : Char) : List Char → List (List Char)
  | [] => [[]]
  | c :: rest =>
    if c = sep then [] :: pySplit sep rest
    else (c :: (pySplit sep rest).headD []) :: (pySplit sep rest).tail

/-- Model of Python `sep.join(parts)` for a one-character separator. -/
def pyJoin (sep : Char) : List (List Char) → List Char
  | [] => []
  | [s] => s
  | s :: rest => s ++ sep :: pyJoin sep rest

/-- Model of Python `str.lower()` (adequate for the ASCII strings involved). -/
def pyLower (s : List Char) : List Char := s.map Char.toLower

theorem pySplit_ne_nil (sep : Char) (l : List Char) : pySplit sep l ≠ [] := by
  cases l with
  | nil => simp [pySplit]
  | cons c rest =>
    simp only [pySplit]
    split <;> simp

theorem pySplit_of_no_sep (sep : Char) (l : List Char) (h : ∀ c ∈ l, c ≠ sep) :
    pySplit sep l = [l] := by
  induction l with
  | nil => rfl
  | cons c rest ih =>
    have hc : c ≠ sep := h c (by simp)
    have hrest : pySplit sep rest = [rest] := ih (fun d hd => h d (by simp [hd]))
    simp [pySplit, hc, hrest]

theorem pySplit_append (sep : Char) (a b : List Char) (h : ∀ c ∈ a, c ≠ sep) :
    pySplit sep (a ++ sep :: b) = a :: pySplit sep b := by
  induction a with
  | nil => simp [pySplit]
  | cons c a' ih =>
    have hc : c ≠ sep := h c (by simp)
    have ha' : pySplit sep (a' ++ sep :: b) = a' :: pySplit sep b :=
      ih (fun d hd => h d (by simp [hd]))
    simp [pySplit, hc, ha']

theorem pySplit_headD_join (sep : Char) (a : List Char) (rest : List (List Char))
    (h : ∀ c ∈ a, c ≠ sep) :
    (pySplit sep (pyJoin sep (a :: rest))).headD [] = a := by
  cases rest with
  | nil => simp [pyJoin, pySplit_of_no_sep sep a h]
  | cons r rs => simp [pyJoin, pySplit_append sep a _ h]

/- String literals occurring in the sources, as character lists. -/

def strREGISTRY : List Char := "REGISTRY".toList

def strMACHINE : List Char := "MACHINE".toList

def strUSER : List Char := "USER".toList

def strHKEY_LOCAL_MACHINE : List Char := "HKEY_LOCAL_MACHINE".toList

def strHKEY_USERS : List Char := "HKEY_USERS".toList

def strHKEY_CURRENT_USER : List Char := "HKEY_CURRENT_USER".toList

example : strMACHINE ≠ strUSER := by decide

example : pySplit '\\' "HKEY_USERS\\S-1-5-21\\Software".toList =
    ["HKEY_USERS".toList, "S-1-5-21".toList, "Software".toList] := by decide

/-- Decidable equality for `Except`, used to evaluate the embedded fallible
operations on concrete inputs. -/
instance {ε α : Type} [DecidableEq ε] [DecidableEq α] : DecidableEq (Except ε α)
  | .error e, .error f => decidable_of_iff (e = f) (by simp)
  | .error _, .ok _ => isFalse (fun h => Except.noConfusion h)
  | .ok _, .error _ => isFalse (fun h => Except.noConfusion h)
  | .ok a, .ok b => decidable_of_iff (a = b) (by simp)

/-! ## registry_helpers.py -/

/-- Model of `get_value(key, name)`: a registry key's values are a finite
association list from value names to (string) data; `QueryValueEx` raising
`FileNotFoundError` for an absent value is absorbed into `none` (the source
returns the pair `(None, -1)`; callers only ever use the first component, so
the type tag is dropped from the model). -/
def get_value (values : List (List Char × List Char)) (name : List Char) :
    Option (List Char) :=
  (values.find? (fun p => p.1 == name)).map (fun p => p.2)

/-- Behaviour of the `ntdll.NtQueryKey` system call on one registry handle, as
observed by `get_path_from_hkey`: the status and reported byte length of the
zero-length probe call, and the status and written contents (16-bit wide
characters, little-endian) of the sized second call.  This models the external
kernel; everything the Python function itself does is in `get_path_from_hkey`. -/
structure NtKernel where
  status1 : Nat
  resultLength : Nat
  status2 : Nat
  fill : List Nat

/-- Size in bytes of `ctypes.c_wchar` on Windows. -/
def sizeof_c_wchar : Nat := 2

/-- Model of `get_path_from_hkey(handle)` from `registry_helpers.py`.  The first
`NtQueryKey` call must return `0xC0000023` (`STATUS_BUFFER_TOO_SMALL`), else the
`assert` fails; a buffer of `(result_length + 2) // sizeof(c_wchar)` wide
characters is allocated (zero-initialised, then overwritten by the kernel with
`fill`); the second call must return `0`, else the second `assert` fails; the
result is the Python slice `buffer[2:-1]` — drop the first two wide characters
and the last one. -/
def get_path_from_hkey (k : NtKernel) : Except RegError (List Nat) :=
  if k.status1 = 0xC0000023 then
    let buffer_size := (k.resultLength + 2) / sizeof_c_wchar
    let buffer := k.fill.take buffer_size ++
      List.replicate (buffer_size - k.fill.length) 0
    if k.status2 = 0 then .ok (buffer.dropLast.drop 2)
    else .error .assertionError
  else .error .assertionError

/-- Model of `get_friendly_hkey_path(path)`: split on backslashes, discard empty
segments (`filter(None, ...)`), then dispatch on the second segment.  A Python
subscript `path_parts[1]` on a list with fewer than two elements raises
`IndexError`; an unrecognised second segment raises `ValueError`. -/
def get_friendly_hkey_path (path : List Char) : Except RegError (List Char) :=
  let path_parts := (pySplit '\\' path).filter (fun s => !s.isEmpty)
  match path_parts[1]? with
  | none => .error .indexError
  | some seg =>
    if seg = strMACHINE then
      .ok (pyJoin '\\' (strHKEY_LOCAL_MACHINE :: path_parts.drop 2))
    else if seg = strUSER then
      .ok (pyJoin '\\' (strHKEY_USERS :: path_parts.drop 2))
    else .error .valueError

/-! ## __main__.py: hive normalizer -/

/-- Model of `hkey_users_to_hkcu(hkey)` from `__main__.py`: split on backslashes
(no filtering of empty segments here); if the first segment is not
`HKEY_USERS` return the input unchanged, otherwise rejoin
`HKEY_CURRENT_USER` with the segments from index 2 on.  `pySplit` never
returns an empty list, so `headD` faithfully models the subscript `parts[0]`. -/
def hkey_users_to_hkcu (hkey : List Char) : List Char :=
  let parts := pySplit '\\' hkey
  if parts.headD [] = strHKEY_USERS then
    pyJoin '\\' (strHKEY_CURRENT_USER :: parts.drop 2)
  else hkey

example : hkey_users_to_hkcu "HKEY_USERS\\S-1-5-21\\Software".toList =
    "HKEY_CURRENT_USER\\Software".toList := by decide

example : get_friendly_hkey_path "\\REGISTRY\\MACHINE\\SOFTWARE\\Python".toList =
    .ok "HKEY_LOCAL_MACHINE\\SOFTWARE\\Python".toList := by decide

example : get_friendly_hkey_path "\\REGISTRY\\UNKNOWN\\X".toList =
    .error .valueError := by decide

example : get_friendly_hkey_path "".toList = .error .indexError := by decide

example : get_path_from_hkey ⟨0xC0000023, 8, 0, [4, 0, 65, 66]⟩ = .ok [65, 66] := by
  decide

/-! ## Kernel path resolver: buffer interpretation -/

/-- Serialisation of a wide-character buffer into bytes (each 16-bit unit
little-endian), as the underlying memory of `create_unicode_buffer`. -/
def unitsToBytes : List Nat → List Nat
  | [] => []
  | u :: rest => u % 256 :: u / 256 % 256 :: unitsToBytes rest

/-- Reassembly of bytes into 16-bit little-endian wide characters; a dangling
odd byte is dropped. -/
def bytesToUnits : List Nat → List Nat
  | b0 :: b1 :: rest => (b0 + 256 * b1) :: bytesToUnits rest
  | _ => []

/-- Reading of the resolver's buffer as described by the specification: the
first 2 bytes are the length field, the remaining bytes are the
wide-character path string, and the single trailing terminator is stripped.
This definition follows the spec's words and exists to be compared with
`get_path_from_hkey`, which skips the first two wide characters (4 bytes). -/
def get_path_from_hkey_specReading (k : NtKernel) : Except RegError (List Nat) :=
  if k.status1 = 0xC0000023 then
    let buffer_size := (k.resultLength + 2) / sizeof_c_wchar
    let buffer := k.fill.take buffer_size ++
      List.replicate (buffer_size - k.fill.length) 0
    if k.status2 = 0 then
      .ok ((bytesToUnits ((unitsToBytes buffer).drop 2)).dropLast)
    else .error .assertionError
  else .error .assertionError

/-- C2 counterexample: for a key named `AB` the kernel reports 8 required bytes
(a 4-byte length field plus two 2-byte characters) and fills the buffer with
the length field `[4, 0]` followed by the characters `[65, 66]`.  The code
returns `AB` (it skips the first two wide characters, i.e. 4 bytes), while the
spec's reading — skip only the first 2 bytes, then strip one trailing
terminator — would return `[0, 65, 66]`.  The two disagree, so the claimed
buffer interpretation does not describe the code. -/
theorem resolver_slice_counterexample :
    get_path_from_hkey ⟨0xC0000023, 8, 0, [4, 0, 65, 66]⟩ = .ok [65, 66]
    ∧ get_path_from_hkey_specReading ⟨0xC0000023, 8, 0, [4, 0, 65, 66]⟩
        = .ok [0, 65, 66]
    ∧ get_path_from_hkey ⟨0xC0000023, 8, 0, [4, 0, 65, 66]⟩
        ≠ get_path_from_hkey_specReading ⟨0xC0000023, 8, 0, [4, 0, 65, 66]⟩ := by
  decide

/-- Wide-character encoding of the 32-bit `NameLength` field of the kernel's
`KEY_NAME_INFORMATION` structure (a ULONG holding the name's byte count, which
occupies the first two 16-bit units of the buffer), for a name of `n` wide
characters. -/
def nameLengthUnits (n : Nat) : List Nat :=
  [2 * n % 65536, 2 * n / 65536 % 65536]

/-- C2 (amended): with the kernel reporting the true required length (4 bytes of
length field plus 2 bytes per character) and filling the buffer with the
`KEY_NAME_INFORMATION` layout, the resolver allocates the reported length plus
2 extra bytes, skips the first two wide characters (the 4-byte length field),
and strips exactly the one trailing null character left by the 2 extra bytes —
returning precisely the key's name. -/
theorem resolver_recovers_name (name : List Nat) :
    get_path_from_hkey
        ⟨0xC0000023, 4 + 2 * name.length, 0, nameLengthUnits name.length ++ name⟩
      = .ok name := by
  simp only [get_path_from_hkey, sizeof_c_wchar, if_pos rfl]
  have hbs : (4 + 2 * name.length + 2) / 2 = name.length + 3 := by omega
  rw [hbs]
  have hlen : (nameLengthUnits name.length ++ name).length = name.length + 2 := by
    simp [nameLengthUnits]
  have htake : (nameLengthUnits name.length ++ name).take (name.length + 3)
      = nameLengthUnits name.length ++ name := by
    apply List.take_of_length_le
    simp [hlen]
  have hrep : name.length + 3 - (nameLengthUnits name.length ++ name).length = 1 := by
    simp [hlen]
  rw [htake, hrep]
  have hrep1 : List.replicate 1 (0 : Nat) = [0] := rfl
  rw [hrep1, List.dropLast_concat]
  simp [nameLengthUnits]

/-- C4: the resolver fails (with the failing `assert`, the code's
`ResolutionError`) precisely when the first system call returns a status other
than `0xC0000023` (buffer too small) or the second returns a status other than
`0` (success); it succeeds precisely when both statuses are the expected ones,
and the failing assertion is its only failure mode. -/
theorem resolver_status_contract (k : NtKernel) :
    (get_path_from_hkey k = .error .assertionError ↔
      (k.status1 ≠ 0xC0000023 ∨ k.status2 ≠ 0))
    ∧ ((∃ r, get_path_from_hkey k = .ok r) ↔
      (k.status1 = 0xC0000023 ∧ k.status2 = 0))
    ∧ ((∃ e, get_path_from_hkey k = .error e) ↔
      get_path_from_hkey k = .error .assertionError) := by
  by_cases h1 : k.status1 = 0xC0000023
  · by_cases h2 : k.status2 = 0
    · simp [get_path_from_hkey, h1, h2]
    · simp [get_path_from_hkey, h1, h2]
  · simp [get_path_from_hkey, h1]

/-- C4 witness: at a kernel returning status `0` for the probe call (not the
expected buffer-too-small status), the resolver fails with the assertion
error and returns no path. -/
theorem resolver_status_contract_witness :
    get_path_from_hkey ⟨0, 0, 0, []⟩ = .error .assertionError
    ∧ ¬ ∃ r, get_path_from_hkey ⟨0, 0, 0, []⟩ = .ok r :=
  ⟨(resolver_status_contract ⟨0, 0, 0, []⟩).1.mpr (Or.inl (by decide)),
    fun hr => by
      have h := (resolver_status_contract ⟨0, 0, 0, []⟩).2.1.mp hr
      exact absurd h.1 (by decide)⟩

/-! ## Friendly-path conversion and hive normalisation -/

theorem gfhp_parts (a b c d : List Char)
    (ha : a ≠ []) (hb : b ≠ []) (hc : c ≠ []) (hd : d ≠ [])
    (has : ∀ ch ∈ a, ch ≠ '\\') (hbs : ∀ ch ∈ b, ch ≠ '\\')
    (hcs : ∀ ch ∈ c, ch ≠ '\\') (hds : ∀ ch ∈ d, ch ≠ '\\') :
    ((pySplit '\\' ('\\' :: (a ++ '\\' :: (b ++ '\\' :: (c ++ '\\' :: d))))).filter
      (fun s => !s.isEmpty)) = [a, b, c, d] := by
  have h1 : pySplit '\\' ('\\' :: (a ++ '\\' :: (b ++ '\\' :: (c ++ '\\' :: d))))
      = [] :: pySplit '\\' (a ++ '\\' :: (b ++ '\\' :: (c ++ '\\' :: d))) := by
    simp [pySplit]
  rw [h1, pySplit_append _ _ _ has, pySplit_append _ _ _ hbs,
    pySplit_append _ _ _ hcs, pySplit_of_no_sep _ _ hds]
  have ea : a.isEmpty = false := by cases a with
    | nil => exact absurd rfl ha
    | cons x xs => rfl
  have eb : b.isEmpty = false := by cases b with
    | nil => exact absurd rfl hb
    | cons x xs => rfl
  have ec : c.isEmpty = false := by cases c with
    | nil => exact absurd rfl hc
    | cons x xs => rfl
  have ed : d.isEmpty = false := by cases d with
    | nil => exact absurd rfl hd
    | cons x xs => rfl
  simp [List.filter, ea, eb, ec, ed]

/-- C3: for every kernel object path `\REGISTRY\MACHINE\X\Y` the friendly-path
conversion yields `HKEY_LOCAL_MACHINE\X\Y`; for every `\REGISTRY\USER\SID\X`
it yields `HKEY_USERS\SID\X`, and the hive normaliser rewrites that result
to `HKEY_CURRENT_USER\X`.  `X`, `Y` and `SID` range over arbitrary non-empty
backslash-free path segments. -/
theorem friendly_path_machine_user (X Y SID : List Char)
    (hX : X ≠ []) (hY : Y ≠ []) (hSID : SID ≠ [])
    (hXs : ∀ c ∈ X, c ≠ '\\') (hYs : ∀ c ∈ Y, c ≠ '\\')
    (hSIDs : ∀ c ∈ SID, c ≠ '\\') :
    get_friendly_hkey_path
        ('\\' :: (strREGISTRY ++ '\\' :: (strMACHINE ++ '\\' :: (X ++ '\\' :: Y))))
      = .ok (strHKEY_LOCAL_MACHINE ++ '\\' :: (X ++ '\\' :: Y))
    ∧ get_friendly_hkey_path
        ('\\' :: (strREGISTRY ++ '\\' :: (strUSER ++ '\\' :: (SID ++ '\\' :: X))))
      = .ok (strHKEY_USERS ++ '\\' :: (SID ++ '\\' :: X))
    ∧ hkey_users_to_hkcu (strHKEY_USERS ++ '\\' :: (SID ++ '\\' :: X))
      = strHKEY_CURRENT_USER ++ '\\' :: X := by
  have hMparts := gfhp_parts strREGISTRY strMACHINE X Y (by decide) (by decide) hX hY
    (by decide) (by decide) hXs hYs
  have hUparts := gfhp_parts strREGISTRY strUSER SID X (by decide) (by decide) hSID hX
    (by decide) (by decide) hSIDs hXs
  refine ⟨?_, ?_, ?_⟩
  · simp only [get_friendly_hkey_path]
    rw [hMparts]
    simp [pyJoin]
  · simp only [get_friendly_hkey_path]
    rw [hUparts]
    have hne : strUSER ≠ strMACHINE := by decide
    simp [pyJoin, hne]
  · have hsp : pySplit '\\' (strHKEY_USERS ++ '\\' :: (SID ++ '\\' :: X))
        = [strHKEY_USERS, SID, X] := by
      rw [pySplit_append _ _ _ (by decide), pySplit_append _ _ _ hSIDs,
        pySplit_of_no_sep _ _ hXs]
    simp only [hkey_users_to_hkcu]
    rw [hsp]
    simp [pyJoin]

/-- C3 witness: the theorem evaluated at `X = SOFTWARE`, `Y = Python`,
`SID = S-1-5-21`. -/
theorem friendly_path_machine_user_witness :
    get_friendly_hkey_path
        ('\\' :: (strREGISTRY ++ '\\' :: (strMACHINE ++ '\\' ::
          ("SOFTWARE".toList ++ '\\' :: "Python".toList))))
      = .ok (strHKEY_LOCAL_MACHINE ++ '\\' :: ("SOFTWARE".toList ++ '\\' :: "Python".toList))
    ∧ get_friendly_hkey_path
        ('\\' :: (strREGISTRY ++ '\\' :: (strUSER ++ '\\' ::
          ("S-1-5-21".toList ++ '\\' :: "SOFTWARE".toList))))
      = .ok (strHKEY_USERS ++ '\\' :: ("S-1-5-21".toList ++ '\\' :: "SOFTWARE".toList))
    ∧ hkey_users_to_hkcu (strHKEY_USERS ++ '\\' :: ("S-1-5-21".toList ++ '\\' :: "SOFTWARE".toList))
      = strHKEY_CURRENT_USER ++ '\\' :: "SOFTWARE".toList :=
  friendly_path_machine_user "SOFTWARE".toList "Python".toList "S-1-5-21".toList
    (by decide) (by decide) (by decide) (by decide) (by decide) (by decide)

/-- C6: the hive normaliser is idempotent, and any path whose first segment is
not `HKEY_USERS` is returned unchanged. -/
theorem hkcu_idempotent (s : List Char) :
    hkey_users_to_hkcu (hkey_users_to_hkcu s) = hkey_users_to_hkcu s
    ∧ ((pySplit '\\' s).headD [] ≠ strHKEY_USERS → hkey_users_to_hkcu s = s) := by
  constructor
  · by_cases h : (pySplit '\\' s).headD [] = strHKEY_USERS
    · have h1 : hkey_users_to_hkcu s
          = pyJoin '\\' (strHKEY_CURRENT_USER :: (pySplit '\\' s).drop 2) := by
        simp only [hkey_users_to_hkcu]
        rw [if_pos h]
      have h2 : (pySplit '\\' (pyJoin '\\'
            (strHKEY_CURRENT_USER :: (pySplit '\\' s).drop 2))).headD []
          = strHKEY_CURRENT_USER := pySplit_headD_join _ _ _ (by decide)
      have hne : strHKEY_CURRENT_USER ≠ strHKEY_USERS := by decide
      rw [h1]
      simp only [hkey_users_to_hkcu]
      rw [if_neg (by rw [h2]; exact hne)]
    · have h1 : hkey_users_to_hkcu s = s := by
        simp only [hkey_users_to_hkcu]
        rw [if_neg h]
      rw [h1]
      exact h1
  · intro h
    simp only [hkey_users_to_hkcu]
    rw [if_neg h]

/-- C5 counterexample: on the empty path (which has no second non-empty
segment) the conversion does fail, but with an out-of-range subscript
(`IndexError`), not with the unrecognised-path `ValueError` — so it is not
the case that every failure of the conversion is an `UnrecognizedPathError`. -/
theorem gfhp_counterexample :
    get_friendly_hkey_path [] = .error .indexError
    ∧ RegError.indexError ≠ RegError.valueError := by decide

/-- C5 (amended): the conversion fails with `ValueError` exactly when the input
has at least two non-empty segments and the second is neither `MACHINE` nor
`USER`; it fails with `IndexError` exactly when there are fewer than two
non-empty segments; and it succeeds in every other case, so these two are its
only failure modes. -/
theorem gfhp_failure_characterization (p : List Char) :
    (get_friendly_hkey_path p = .error .valueError ↔
      ∃ s, ((pySplit '\\' p).filter (fun t => !t.isEmpty))[1]? = some s ∧
        s ≠ strMACHINE ∧ s ≠ strUSER)
    ∧ (get_friendly_hkey_path p = .error .indexError ↔
        ((pySplit '\\' p).filter (fun t => !t.isEmpty))[1]? = none)
    ∧ ((∃ e, get_friendly_hkey_path p = .error e) ↔
        (get_friendly_hkey_path p = .error .valueError ∨
          get_friendly_hkey_path p = .error .indexError)) := by
  cases hm : ((pySplit '\\' p).filter (fun t => !t.isEmpty))[1]? with
  | none =>
    have hval : get_friendly_hkey_path p = .error .indexError := by
      simp [get_friendly_hkey_path, hm]
    refine ⟨?_, ?_, ?_⟩
    · simp [hval, hm]
    · simp [hval, hm]
    · constructor
      · intro _
        exact Or.inr hval
      · intro _
        exact ⟨.indexError, hval⟩
  | some seg =>
    by_cases hM : seg = strMACHINE
    · have hval : get_friendly_hkey_path p
          = .ok (pyJoin '\\' (strHKEY_LOCAL_MACHINE ::
              ((pySplit '\\' p).filter (fun t => !t.isEmpty)).drop 2)) := by
        simp [get_friendly_hkey_path, hm, hM]
      refine ⟨?_, ?_, ?_⟩
      · simp [hval, hm, hM]
      · simp [hval]
      · simp [hval]
    · by_cases hU : seg = strUSER
      · have hval : get_friendly_hkey_path p
            = .ok (pyJoin '\\' (strHKEY_USERS ::
                ((pySplit '\\' p).filter (fun t => !t.isEmpty)).drop 2)) := by
          simp only [get_friendly_hkey_path, hm, hU]
          simp
          intro h
          exact absurd h (by decide)
        refine ⟨?_, ?_, ?_⟩
        · simp [hval, hm, hU]
        · simp [hval]
        · simp [hval]
      · have hval : get_friendly_hkey_path p = .error .valueError := by
          simp [get_friendly_hkey_path, hm, hM, hU]
        refine ⟨?_, ?_, ?_⟩
        · exact ⟨fun _ => ⟨seg, rfl, hM, hU⟩, fun _ => hval⟩
        · simp [hval, hm]
        · constructor
          · intro _
            exact Or.inl hval
          · intro _
            exact ⟨.valueError, hval⟩

/-- C5 witness: the claim's own example input `\REGISTRY\UNKNOWN\X` fails with
the unrecognised-path error, via the characterisation theorem. -/
theorem gfhp_failure_characterization_witness :
    get_friendly_hkey_path "\\REGISTRY\\UNKNOWN\\X".toList = .error .valueError :=
  ((gfhp_failure_characterization "\\REGISTRY\\UNKNOWN\\X".toList).1).mpr
    ⟨"UNKNOWN".toList, by decide, by decide, by decide⟩

/-! ## Discovery scanners (__main__.py) -/

def strPublisher : List Char := "Publisher".toList

def strDisplayName : List Char := "DisplayName".toList

def strInstallSource : List Char := "InstallSource".toList

def strPSF : List Char := "Python Software Foundation".toList

def strPythonCore : List Char := "PythonCore".toList

/-- One subkey of the uninstall root, as seen by `get_psf_uninstall_entries`:
its name (from `list_keys`), its named values, and the kernel object path that
`get_path_from_hkey` resolves for its open handle (the handle/NtQueryKey layer
is modelled by recording the resolved object path directly). -/
structure AppKey where
  name : List Char
  values : List (List Char × List Char)
  kernelPath : List Char
deriving DecidableEq

/-- Entry yielded by the uninstall scanner: display name, install source
(each possibly absent) and the normalised registry path. -/
abbrev UninstallEntry := Option (List Char) × Option (List Char) × List Char

/-- Body of the `for app in list_keys(uninstall_key)` loop of
`get_psf_uninstall_entries`: read `Publisher`, `DisplayName`, `InstallSource`
(absent values become `none`), and yield an entry — resolving and normalising
the registry path — only when the publisher equals
`"Python Software Foundation"`.  An exception from the path conversion
propagates out of the generator. -/
def scanApps : List AppKey → Except RegError (List UninstallEntry)
  | [] => .ok []
  | app :: rest =>
    if get_value app.values strPublisher = some strPSF then
      match get_friendly_hkey_path app.kernelPath with
      | .error e => .error e
      | .ok friendly =>
        match scanApps rest with
        | .error e => .error e
        | .ok tail =>
          .ok ((get_value app.values strDisplayName,
            get_value app.values strInstallSource,
            hkey_users_to_hkcu friendly) :: tail)
    else scanApps rest

/-- Model of `get_psf_uninstall_entries`: opening the uninstall root raises
`FileNotFoundError` when the root key is absent for the requested view
(`none`); otherwise every subkey is scanned in enumeration order. -/
def get_psf_uninstall_entries (root : Option (List AppKey)) :
    Except RegError (List UninstallEntry) :=
  match root with
  | none => .error .fileNotFound
  | some apps => scanApps apps

/-- One version-tag subkey under `SOFTWARE\Python\<company>`: its named values,
its optional `InstallPath` subkey (with that subkey's values; `none` models the
subkey being absent, so that opening it raises `FileNotFoundError`), and the
kernel object path resolved for its handle. -/
structure TagKey where
  name : List Char
  values : List (List Char × List Char)
  installPath : Option (List (List Char × List Char))
  kernelPath : List Char
deriving DecidableEq

/-- One company subkey under `SOFTWARE\Python`. -/
structure CompanyKey where
  name : List Char
  tags : List TagKey
deriving DecidableEq

/-- Entry yielded by the PEP-514 scanner: display name, install path (absent
`InstallPath` subkey gives `some []`, i.e. the empty string; an `InstallPath`
subkey without a default value gives `none`) and the normalised registry
path. -/
abbrev Pep514Entry := Option (List Char) × Option (List Char) × List Char

/-- Body of the `for tag in list_keys(company_key)` loop of
`get_pep514_entries`: read `DisplayName`; try to open the `InstallPath` subkey
and read its default value, turning `FileNotFoundError` from the open into the
empty string; then resolve and normalise the registry path and yield. -/
def scanTags : List TagKey → Except RegError (List Pep514Entry)
  | [] => .ok []
  | tag :: rest =>
    let display_name := get_value tag.values strDisplayName
    let install_path : Option (List Char) :=
      match tag.installPath with
      | none => some []
      | some vals => get_value vals []
    match get_friendly_hkey_path tag.kernelPath with
    | .error e => .error e
    | .ok friendly =>
      match scanTags rest with
      | .error e => .error e
      | .ok tail =>
        .ok ((display_name, install_path, hkey_users_to_hkcu friendly) :: tail)

/-- Body of the `for company in list_keys(python_key)` loop of
`get_pep514_entries`: any company other than `PythonCore` is skipped with
`continue`; for `PythonCore` the version tags beneath it are scanned. -/
def scanCompanies : List CompanyKey → Except RegError (List Pep514Entry)
  | [] => .ok []
  | c :: rest =>
    if c.name = strPythonCore then
      match scanTags c.tags with
      | .error e => .error e
      | .ok es =>
        match scanCompanies rest with
        | .error e => .error e
        | .ok tail => .ok (es ++ tail)
    else scanCompanies rest

/-- Model of `get_pep514_entries`: opening `SOFTWARE\Python` raises
`FileNotFoundError` when that root is absent for the requested view (`none`);
otherwise the company subkeys are scanned in enumeration order. -/
def get_pep514_entries (root : Option (List CompanyKey)) :
    Except RegError (List Pep514Entry) :=
  match root with
  | none => .error .fileNotFound
  | some companies => scanCompanies companies

/-- C8: the uninstall scanner yields an entry for a subkey exactly when its
`Publisher` value equals the literal string `Python Software Foundation` under
case-sensitive equality: dropping all other subkeys leaves the scan unchanged,
a successful scan yields exactly one entry per matching subkey, and a root
with three subkeys of which only the second matches yields exactly that
second subkey's entry, whatever the display names of the other two. -/
theorem psf_publisher_filter :
    (∀ apps, scanApps apps = scanApps (apps.filter
        (fun a => decide (get_value a.values strPublisher = some strPSF))))
    ∧ (∀ apps l, scanApps apps = .ok l →
        l.length = (apps.filter
          (fun a => decide (get_value a.values strPublisher = some strPSF))).length)
    ∧ (∀ a1 a2 a3 f,
        get_value a1.values strPublisher ≠ some strPSF →
        get_value a2.values strPublisher = some strPSF →
        get_value a3.values strPublisher ≠ some strPSF →
        get_friendly_hkey_path a2.kernelPath = .ok f →
        scanApps [a1, a2, a3] = .ok [(get_value a2.values strDisplayName,
          get_value a2.values strInstallSource, hkey_users_to_hkcu f)]) := by
  refine ⟨?_, ?_, ?_⟩
  · intro apps
    induction apps with
    | nil => rfl
    | cons a rest ih =>
      by_cases h : get_value a.values strPublisher = some strPSF
      · have hfc : (a :: rest).filter
            (fun a => decide (get_value a.values strPublisher = some strPSF))
            = a :: rest.filter
              (fun a => decide (get_value a.values strPublisher = some strPSF)) := by
          simp [List.filter_cons, h]
        rw [hfc]
        simp only [scanApps, if_pos h]
        rw [ih]
      · have hfc : (a :: rest).filter
            (fun a => decide (get_value a.values strPublisher = some strPSF))
            = rest.filter
              (fun a => decide (get_value a.values strPublisher = some strPSF)) := by
          simp [List.filter_cons, h]
        rw [hfc]
        simp only [scanApps, if_neg h]
        exact ih
  · intro apps
    induction apps with
    | nil =>
      intro l hl
      simp only [scanApps, Except.ok.injEq] at hl
      subst hl
      rfl
    | cons a rest ih =>
      intro l hl
      by_cases h : get_value a.values strPublisher = some strPSF
      · simp only [scanApps, if_pos h] at hl
        cases hg : get_friendly_hkey_path a.kernelPath with
        | error e =>
          rw [hg] at hl
          exact absurd hl (by simp)
        | ok f =>
          rw [hg] at hl
          cases hs : scanApps rest with
          | error e =>
            rw [hs] at hl
            exact absurd hl (by simp)
          | ok tail =>
            rw [hs] at hl
            simp only [Except.ok.injEq] at hl
            subst hl
            have hlen := ih tail hs
            simp [List.filter_cons, h, hlen]
      · simp only [scanApps, if_neg h] at hl
        have hfc : (a :: rest).filter
            (fun a => decide (get_value a.values strPublisher = some strPSF))
            = rest.filter
              (fun a => decide (get_value a.values strPublisher = some strPSF)) := by
          simp [List.filter_cons, h]
        rw [hfc]
        exact ih l hl
  · intro a1 a2 a3 f h1 h2 h3 hf
    simp only [scanApps, if_neg h1, if_pos h2, hf, if_neg h3]

/-- Subkey whose publisher is absent: never yielded, whatever its display
name. -/
def appNoPub : AppKey :=
  { name := "PyLauncher".toList,
    values := [("DisplayName".toList, "Python Launcher".toList)],
    kernelPath := "\\REGISTRY\\MACHINE\\SOFTWARE\\Uninst\\PyLauncher".toList }

/-- Subkey published by the Python Software Foundation: yielded. -/
def appPSF : AppKey :=
  { name := "Py312".toList,
    values := [("Publisher".toList, "Python Software Foundation".toList),
      ("DisplayName".toList, "Python 3.12.0".toList)],
    kernelPath := "\\REGISTRY\\USER\\S-1-5-21\\Software\\Py312".toList }

/-- Subkey whose publisher differs only in case: never yielded. -/
def appLowerPub : AppKey :=
  { name := "PyOld".toList,
    values := [("Publisher".toList, "python software foundation".toList),
      ("DisplayName".toList, "Python 2.7.0".toList)],
    kernelPath := "\\REGISTRY\\MACHINE\\SOFTWARE\\Uninst\\PyOld".toList }

/-- C8 witness: of three subkeys, only the one whose publisher matches exactly
(case-sensitively) is yielded; the lowercase-publisher subkey and the
publisher-less subkey are excluded despite their display names. -/
theorem psf_publisher_filter_witness :
    scanApps [appNoPub, appPSF, appLowerPub]
      = .ok [(some "Python 3.12.0".toList, none,
          "HKEY_CURRENT_USER\\Software\\Py312".toList)]
    ∧ ([(some "Python 3.12.0".toList, none,
          "HKEY_CURRENT_USER\\Software\\Py312".toList)] : List UninstallEntry).length
      = (List.filter (fun a => decide (get_value a.values strPublisher = some strPSF))
          [appNoPub, appPSF, appLowerPub]).length := by
  have h := psf_publisher_filter.2.2 appNoPub appPSF appLowerPub
    "HKEY_USERS\\S-1-5-21\\Software\\Py312".toList
    (by decide) (by decide) (by decide) (by decide)
  have hscan : scanApps [appNoPub, appPSF, appLowerPub]
      = .ok [(some "Python 3.12.0".toList, none,
          "HKEY_CURRENT_USER\\Software\\Py312".toList)] := by
    rw [h]
    decide
  exact ⟨hscan, psf_publisher_filter.2.1 _ _ hscan⟩

/-- C7: the PEP-514 scanner yields only tags under the `PythonCore` company
subkey — removing every other company leaves the scan unchanged — and a
`PythonCore` tag without an `InstallPath` subkey yields an entry whose install
path is the empty string instead of raising. -/
theorem pep514_core_only :
    (∀ companies, get_pep514_entries (some companies)
        = get_pep514_entries (some (companies.filter
            (fun c => decide (c.name = strPythonCore)))))
    ∧ (∀ (tag : TagKey) (f : List Char), tag.installPath = none →
        get_friendly_hkey_path tag.kernelPath = .ok f →
        scanTags [tag] = .ok [(get_value tag.values strDisplayName, some [],
          hkey_users_to_hkcu f)]) := by
  constructor
  · intro companies
    simp only [get_pep514_entries]
    induction companies with
    | nil => rfl
    | cons c rest ih =>
      by_cases h : c.name = strPythonCore
      · have hfc : (c :: rest).filter (fun c => decide (c.name = strPythonCore))
            = c :: rest.filter (fun c => decide (c.name = strPythonCore)) := by
          simp [List.filter_cons, h]
        rw [hfc]
        simp only [scanCompanies, if_pos h]
        rw [ih]
      · have hfc : (c :: rest).filter (fun c => decide (c.name = strPythonCore))
            = rest.filter (fun c => decide (c.name = strPythonCore)) := by
          simp [List.filter_cons, h]
        rw [hfc]
        simp only [scanCompanies, if_neg h]
        exact ih
  · intro tag f htag hf
    simp only [scanTags, htag, hf]

/-- PythonCore version tag with no `InstallPath` subkey. -/
def tagNoInstall : TagKey :=
  { name := "3.12".toList,
    values := [("DisplayName".toList, "Python 3.12 (64-bit)".toList)],
    installPath := none,
    kernelPath := "\\REGISTRY\\MACHINE\\SOFTWARE\\Python\\PythonCore\\3.12".toList }

/-- Version tag under a company other than PythonCore. -/
def tagOtherCorp : TagKey :=
  { name := "9.9".toList,
    values := [("DisplayName".toList, "OtherPython 9.9".toList)],
    installPath := some [([], "C:\\Other".toList)],
    kernelPath := "\\REGISTRY\\MACHINE\\SOFTWARE\\Python\\OtherCorp\\9.9".toList }

/-- C7 witness: a tree with companies `PythonCore` and `OtherCorp` yields only
the `PythonCore` tag, and that tag — lacking an `InstallPath` subkey — carries
the empty string as its install path. -/
theorem pep514_core_only_witness :
    get_pep514_entries (some [⟨"PythonCore".toList, [tagNoInstall]⟩,
        ⟨"OtherCorp".toList, [tagOtherCorp]⟩])
      = .ok [(some "Python 3.12 (64-bit)".toList, some [],
          "HKEY_LOCAL_MACHINE\\SOFTWARE\\Python\\PythonCore\\3.12".toList)]
    ∧ scanTags [tagNoInstall]
      = .ok [(some "Python 3.12 (64-bit)".toList, some [],
          "HKEY_LOCAL_MACHINE\\SOFTWARE\\Python\\PythonCore\\3.12".toList)] := by
  constructor
  · have h := pep514_core_only.1 [⟨"PythonCore".toList, [tagNoInstall]⟩,
      ⟨"OtherCorp".toList, [tagOtherCorp]⟩]
    rw [h]
    decide
  · have h := pep514_core_only.2 tagNoInstall
      "HKEY_LOCAL_MACHINE\\SOFTWARE\\Python\\PythonCore\\3.12".toList
      (by decide) (by decide)
    rw [h]
    decide

/-! ## PATH scanner (__main__.py, get_path_entries) -/

def strScripts : List Char := "Scripts".toList

def strPython : List Char := "python".toList

def strPip : List Char := "pip".toList

def strPythonExe : List Char := "python.exe".toList

/-- Filesystem oracle seen by the PATH scanner: whether a path string names an
existing entry (`os.path` existence checks), and the names of a directory's
immediate children (`Path.glob("*")`, in iteration order). -/
structure FS where
  pathExists : List Char → Bool
  listDir : List Char → List (List Char)

/-- Model of a `pathlib.Path` value as its underlying path string. -/
structure PyPath where
  str : List Char
deriving DecidableEq

/-- Model of `pathlib.Path.name` for the backslash-separated Windows paths the
scanner handles: the final non-empty path component. -/
def PyPath.name (p : PyPath) : List Char :=
  ((pySplit '\\' p.str).filter (fun s => !s.isEmpty)).getLastD []

/-- Model of the `path / child` join of `pathlib`. -/
def pathJoin (a b : List Char) : List Char := a ++ '\\' :: b

/-- Model of the Python substring test `needle in hay`: true when `needle`
occurs contiguously anywhere in `hay`. -/
def pyInStr (needle : List Char) : List Char → Bool
  | [] => needle.isEmpty
  | c :: rest => needle.isPrefixOf (c :: rest) || pyInStr needle rest

/-- Body of the collection loop of `get_path_entries` for one PATH segment:
skip segments not containing `python` (case-insensitively); record a
non-existent directory as `(path, False)`; for an existing `Scripts` directory
record the parent (the `Scripts` directory itself) once per child whose name
starts with `pip`; otherwise record the directory as existing only when a
`python.exe` is directly inside it. -/
def collectOne (fs : FS) (s : List Char) : List (PyPath × Bool) :=
  if pyInStr strPython (pyLower s) = true then
    if fs.pathExists s = true then
      if (PyPath.mk s).name = strScripts then
        (fs.listDir s).filterMap (fun child =>
          if strPip.isPrefixOf child = true then some (PyPath.mk s, true) else none)
      else if fs.pathExists (pathJoin s strPythonExe) = true then
        [(PyPath.mk s, true)]
      else []
    else [(PyPath.mk s, false)]
  else []

/-- Collection phase of `get_path_entries` over the split PATH segments. -/
def collectPaths (fs : FS) : List (List Char) → List (PyPath × Bool)
  | [] => []
  | s :: rest => collectOne fs s ++ collectPaths fs rest

/-- Deduplication loop of `get_path_entries`: `seen` is the `already_seen`
accumulator of final path-segment names; a pair whose name was already seen is
skipped, otherwise it is kept and its name appended. -/
def dedupAux : List (PyPath × Bool) → List (List Char) → List (PyPath × Bool)
  | [], _ => []
  | pe :: rest, seen =>
    if pe.1.name ∈ seen then dedupAux rest seen
    else pe :: dedupAux rest (seen ++ [pe.1.name])

/-- Model of `get_path_entries`: split the PATH variable on `;`, collect the
(path, exists) pairs, then deduplicate by final path-segment name. -/
def get_path_entries (fs : FS) (pathVar : List Char) : List (PyPath × Bool) :=
  dedupAux (collectPaths fs (pySplit ';' pathVar)) []

/-- Deduplication as the specification words it: keep the first pair of each
distinct final path-segment name and drop every later pair with that name.
This definition follows the spec's words and is compared with the code's
accumulator loop `dedupAux`. -/
def dedupFirstByName : List (PyPath × Bool) → List (PyPath × Bool)
  | [] => []
  | pe :: rest =>
    pe :: dedupFirstByName (rest.filter (fun q => !decide (q.1.name = pe.1.name)))
termination_by l => l.length
decreasing_by
  simp only [List.length_cons]
  exact Nat.lt_succ_of_le (List.length_filter_le _ _)

theorem dedupFirstByName_nil : dedupFirstByName [] = [] := by
  rw [dedupFirstByName]

theorem dedupFirstByName_cons (pe : PyPath × Bool) (rest : List (PyPath × Bool)) :
    dedupFirstByName (pe :: rest)
      = pe :: dedupFirstByName
          (rest.filter (fun q => !decide (q.1.name = pe.1.name))) := by
  rw [dedupFirstByName]

theorem dedupAux_eq (l : List (PyPath × Bool)) (seen : List (List Char)) :
    dedupAux l seen
      = dedupFirstByName (l.filter (fun pe => !decide (pe.1.name ∈ seen))) := by
  induction l generalizing seen with
  | nil => exact dedupFirstByName_nil.symm
  | cons pe rest ih =>
    by_cases h : pe.1.name ∈ seen
    · have hfc : (pe :: rest).filter (fun q => !decide (q.1.name ∈ seen))
          = rest.filter (fun q => !decide (q.1.name ∈ seen)) := by
        simp [List.filter_cons, h]
      simp only [dedupAux, if_pos h]
      rw [hfc]
      exact ih seen
    · have hfc : (pe :: rest).filter (fun q => !decide (q.1.name ∈ seen))
          = pe :: rest.filter (fun q => !decide (q.1.name ∈ seen)) := by
        simp [List.filter_cons, h]
      simp only [dedupAux, if_neg h]
      rw [hfc, dedupFirstByName_cons]
      congr 1
      rw [ih (seen ++ [pe.1.name]), List.filter_filter]
      congr 1
      apply List.filter_congr
      intro q hq
      by_cases h1 : q.1.name ∈ seen <;> by_cases h2 : q.1.name = pe.1.name <;>
        simp [h1, h2, List.mem_append]

theorem collectPaths_append (fs : FS) (l1 l2 : List (List Char)) :
    collectPaths fs (l1 ++ l2) = collectPaths fs l1 ++ collectPaths fs l2 := by
  induction l1 with
  | nil => rfl
  | cons s rest ih => simp [collectPaths, ih]

/-- C9: the deduplication loop keeps, in discovery order, exactly the first
collected pair for each distinct final path-segment name and drops every later
pair with that name, whatever its exists flag or full path (it agrees with the
first-occurrence-wins reference `dedupFirstByName`); and a PATH segment naming
a non-existent directory is recorded as `(path, false)` in place within the
collected sequence — which the same deduplication is then applied to. -/
theorem path_dedup :
    (∀ l, dedupAux l [] = dedupFirstByName l)
    ∧ (∀ (fs : FS) (pre post : List (List Char)) (s : List Char),
        pyInStr strPython (pyLower s) = true →
        fs.pathExists s = false →
        collectPaths fs (pre ++ s :: post)
          = collectPaths fs pre ++ (PyPath.mk s, false) :: collectPaths fs post) := by
  constructor
  · intro l
    rw [dedupAux_eq]
    congr 1
    simp
  · intro fs pre post s hpy hex
    rw [collectPaths_append]
    congr 1
    have h1 : collectOne fs s = [(PyPath.mk s, false)] := by
      simp [collectOne, hpy, hex]
    simp only [collectPaths]
    rw [h1]
    rfl

/-- Filesystem for the C9 witness: two existing `Scripts` directories and
nothing else. -/
def fsW : FS :=
  { pathExists := fun s =>
      s == "C:\\PyA\\Scripts".toList || s == "C:\\PyB\\Scripts".toList,
    listDir := fun _ => [] }

/-- C9 witness: deduplication keeps the first `Scripts`-named pair and the
non-existent `python`-named pair but drops the later `Scripts` pair despite
its different full path and true exists flag; and a non-existent segment is
collected as `(path, false)` between its neighbours. -/
theorem path_dedup_witness :
    dedupAux [(PyPath.mk "C:\\PyA\\Scripts".toList, true),
        (PyPath.mk "C:\\PyMissing\\python".toList, false),
        (PyPath.mk "C:\\PyB\\Scripts".toList, true)] []
      = [(PyPath.mk "C:\\PyA\\Scripts".toList, true),
        (PyPath.mk "C:\\PyMissing\\python".toList, false)]
    ∧ collectPaths fsW
        (["C:\\PyA\\Scripts".toList] ++ "C:\\PyMissing\\python".toList ::
          ["C:\\PyB\\Scripts".toList])
      = collectPaths fsW ["C:\\PyA\\Scripts".toList] ++
        (PyPath.mk "C:\\PyMissing\\python".toList, false) ::
          collectPaths fsW ["C:\\PyB\\Scripts".toList] := by
  constructor
  · decide
  · exact path_dedup.2 fsW _ _ _ (by decide) (by decide)

theorem filterMap_if_eq_map_filter {α β : Type} (p : α → Bool) (x : β)
    (l : List α) :
    l.filterMap (fun c => if p c = true then some x else none)
      = (l.filter p).map (fun _ => x) := by
  induction l with
  | nil => rfl
  | cons a t ih =>
    cases h : p a <;> simp [List.filterMap_cons, List.filter_cons, h, ih]

/-- C10: an existing `python`-containing PATH directory contributes no pair at
all when it is not named `Scripts` and holds no `python.exe`, or when it is
named `Scripts` and has no `pip`-prefixed child — it is silently absent from
the collected sequence; and a `Scripts` directory contributes exactly one
`(Scripts directory, true)` pair per `pip`-prefixed child. -/
theorem path_scanner_scripts (fs : FS) (pre post : List (List Char))
    (s : List Char)
    (hpy : pyInStr strPython (pyLower s) = true)
    (hex : fs.pathExists s = true) :
    ((PyPath.mk s).name ≠ strScripts →
      fs.pathExists (pathJoin s strPythonExe) = false →
      collectPaths fs (pre ++ s :: post)
        = collectPaths fs pre ++ collectPaths fs post)
    ∧ ((PyPath.mk s).name = strScripts →
      (∀ c ∈ fs.listDir s, strPip.isPrefixOf c = false) →
      collectPaths fs (pre ++ s :: post)
        = collectPaths fs pre ++ collectPaths fs post)
    ∧ ((PyPath.mk s).name = strScripts →
      collectOne fs s
        = ((fs.listDir s).filter (fun c => strPip.isPrefixOf c)).map
            (fun _ => (PyPath.mk s, true))) := by
  refine ⟨?_, ?_, ?_⟩
  · intro hname hnoexe
    rw [collectPaths_append]
    congr 1
    have h1 : collectOne fs s = [] := by
      simp [collectOne, hpy, hex, hname, hnoexe]
    simp only [collectPaths]
    rw [h1]
    rfl
  · intro hname hnopip
    rw [collectPaths_append]
    congr 1
    have h1 : collectOne fs s = [] := by
      simp only [collectOne, hpy, hex, hname]
      rw [filterMap_if_eq_map_filter]
      have : (fs.listDir s).filter (fun c => strPip.isPrefixOf c) = [] := by
        rw [List.filter_eq_nil_iff]
        intro c hc
        simp [hnopip c hc]
      rw [this]
      rfl
    simp only [collectPaths]
    rw [h1]
    rfl
  · intro hname
    simp only [collectOne, hpy, hex, hname]
    exact filterMap_if_eq_map_filter _ _ _

/-- Filesystem for the C10 witness: a `Scripts` directory with two
`pip`-prefixed children and one other child, an existing python-named
directory without `python.exe`, and a `Scripts` directory with no children. -/
def fsScripts : FS :=
  { pathExists := fun s =>
      s == "C:\\Python312\\Scripts".toList || s == "C:\\python27".toList ||
        s == "C:\\Python39\\Scripts".toList,
    listDir := fun s =>
      if s == "C:\\Python312\\Scripts".toList then
        ["pip.exe".toList, "pip3.12.exe".toList, "wheel.exe".toList]
      else [] }

/-- C10 witness: the existing `C:\python27` (no `python.exe` inside) and the
existing `C:\Python39\Scripts` (no pip-prefixed child) contribute nothing,
while `C:\Python312\Scripts` contributes one `(Scripts, true)` pair for each
of its two pip-prefixed children. -/
theorem path_scanner_scripts_witness :
    collectPaths fsScripts ([] ++ "C:\\python27".toList :: [])
      = collectPaths fsScripts [] ++ collectPaths fsScripts []
    ∧ collectPaths fsScripts ([] ++ "C:\\Python39\\Scripts".toList :: [])
      = collectPaths fsScripts [] ++ collectPaths fsScripts []
    ∧ collectOne fsScripts "C:\\Python312\\Scripts".toList
      = [(PyPath.mk "C:\\Python312\\Scripts".toList, true),
        (PyPath.mk "C:\\Python312\\Scripts".toList, true)] := by
  have h1 := path_scanner_scripts fsScripts [] [] "C:\\python27".toList
    (by decide) (by decide)
  have h2 := path_scanner_scripts fsScripts [] [] "C:\\Python39\\Scripts".toList
    (by decide) (by decide)
  have h3 := path_scanner_scripts fsScripts [] [] "C:\\Python312\\Scripts".toList
    (by decide) (by decide)
  refine ⟨h1.1 (by decide) (by decide), h2.2.1 (by decide) (by decide), ?_⟩
  rw [h3.2.2 (by decide)]
  decide

/-- C6 witness: the theorem evaluated at `HKEY_LOCAL_MACHINE\SOFTWARE`, a path
whose first segment is not `HKEY_USERS`. -/
theorem hkcu_idempotent_witness :
    hkey_users_to_hkcu (hkey_users_to_hkcu "HKEY_LOCAL_MACHINE\\SOFTWARE".toList)
      = hkey_users_to_hkcu "HKEY_LOCAL_MACHINE\\SOFTWARE".toList
    ∧ hkey_users_to_hkcu "HKEY_LOCAL_MACHINE\\SOFTWARE".toList
      = "HKEY_LOCAL_MACHINE\\SOFTWARE".toList :=
  ⟨(hkcu_idempotent "HKEY_LOCAL_MACHINE\\SOFTWARE".toList).1,
    (hkcu_idempotent "HKEY_LOCAL_MACHINE\\SOFTWARE".toList).2 (by decide)⟩

/-! ## The top-level report (__main__.py, main) -/

/-- Entry yielded by `read_psf_win_apps`: display name, package identifier,
package version. -/
abbrev StoreEntry := List Char × List Char × List Char

/-- The machine state a report run observes: the uninstall roots for the three
views (HKCU, HKLM 32-bit, HKLM 64-bit; `none` models the root key being absent
for that view), the outcome of the WindowsApps store enumeration
(`.error .permissionError` when `read_psf_win_apps` hits an inaccessible
WindowsApps directory), the `SOFTWARE\Python` roots for the three views, and
the filesystem and PATH variable seen by the PATH scanner. -/
structure Machine where
  uninstHKCU : Option (List AppKey)
  uninstHKLM32 : Option (List AppKey)
  uninstHKLM64 : Option (List AppKey)
  storeScan : Except RegError (List StoreEntry)
  pyHKCU : Option (List CompanyKey)
  pyHKLM32 : Option (List CompanyKey)
  pyHKLM64 : Option (List CompanyKey)
  fs : FS
  pathVar : List Char

/-- The structured content of a completed report: per-view uninstall entries,
the store section (`none` when it degraded to the permission warning), the
per-view PEP-514 sections (`none` when that view's missing root was caught
and the view skipped), and the PATH entries. -/
structure Report where
  uninstall : List UninstallEntry × List UninstallEntry × List UninstallEntry
  store : Option (List StoreEntry)
  pep514 : Option (List Pep514Entry) × Option (List Pep514Entry) ×
    Option (List Pep514Entry)
  paths : List (PyPath × Bool)

/-- The store section of `main`: the loop over `read_psf_win_apps()` is wrapped
in `try ... except PermissionError`, which turns a permission failure into a
warning line (`none`); any other error propagates. -/
def runStore : Except RegError (List StoreEntry) →
    Except RegError (Option (List StoreEntry))
  | .error .permissionError => .ok none
  | .error e => .error e
  | .ok l => .ok (some l)

/-- One view of the PEP-514 section of `main`: the loop over the view's entries
is wrapped in `try ... except FileNotFoundError: continue`, so a missing
`SOFTWARE\Python` root skips the view (`none`); any other error propagates. -/
def runPep (root : Option (List CompanyKey)) :
    Except RegError (Option (List Pep514Entry)) :=
  match get_pep514_entries root with
  | .error .fileNotFound => .ok none
  | .error e => .error e
  | .ok l => .ok (some l)

/-- Model of `main()`: consume the three uninstall-entry generators (with no
`try`/`except` around them, so any error — including the `FileNotFoundError`
of a missing uninstall root — propagates and aborts the run), then the store
section (catching only `PermissionError`), then the three PEP-514 views (each
catching only `FileNotFoundError`), then the PATH entries. -/
def main (m : Machine) : Except RegError Report :=
  (get_psf_uninstall_entries m.uninstHKCU).bind fun u1 =>
  (get_psf_uninstall_entries m.uninstHKLM32).bind fun u2 =>
  (get_psf_uninstall_entries m.uninstHKLM64).bind fun u3 =>
  (runStore m.storeScan).bind fun st =>
  (runPep m.pyHKCU).bind fun p1 =>
  (runPep m.pyHKLM32).bind fun p2 =>
  (runPep m.pyHKLM64).bind fun p3 =>
  .ok ⟨(u1, u2, u3), st, (p1, p2, p3), get_path_entries m.fs m.pathVar⟩

/-- Filesystem with nothing in it, for concrete machines. -/
def fsEmpty : FS := { pathExists := fun _ => false, listDir := fun _ => [] }

/-- Machine on which only the HKCU uninstall root is absent; every other root
is present (and empty), the store scan succeeds, and the PATH is empty. -/
def machineMissingUninstallRoot : Machine :=
  { uninstHKCU := none,
    uninstHKLM32 := some [],
    uninstHKLM64 := some [],
    storeScan := .ok [],
    pyHKCU := some [],
    pyHKLM32 := some [],
    pyHKLM64 := some [],
    fs := fsEmpty,
    pathVar := [] }

/-- C1 counterexample: on a machine where the uninstall root is missing for the
HKCU view alone — all other roots present and every other channel healthy —
the whole report run aborts with the uncaught `FileNotFoundError` instead of
completing for the other views and channels: `main` has no handler around the
uninstall-entry loops. -/
theorem main_missing_root_counterexample :
    main machineMissingUninstallRoot = .error .fileNotFound := rfl

/-- C1 (amended): the per-view catch exists only for the PEP-514 channel.  If
the three uninstall scans succeed, the store scan either succeeds or fails
with the caught permission error, and each PEP-514 view either succeeds or
fails with the caught `FileNotFoundError` of a missing `SOFTWARE\Python` root,
then the report completes; but an error from the uninstall scan of any of the
three views — in particular the `FileNotFoundError` of a missing uninstall
root for that view — propagates (with the preceding views' scans succeeding
as they do in the run) and aborts the whole report, so an uninstall-scan
error in any view leaves the report unable to complete. -/
theorem main_per_view_policy :
    (∀ m : Machine,
      (∃ l, get_psf_uninstall_entries m.uninstHKCU = .ok l) →
      (∃ l, get_psf_uninstall_entries m.uninstHKLM32 = .ok l) →
      (∃ l, get_psf_uninstall_entries m.uninstHKLM64 = .ok l) →
      (m.storeScan = .error .permissionError ∨ ∃ l, m.storeScan = .ok l) →
      (∀ root ∈ [m.pyHKCU, m.pyHKLM32, m.pyHKLM64],
        get_pep514_entries root = .error .fileNotFound ∨
          ∃ l, get_pep514_entries root = .ok l) →
      ∃ r, main m = .ok r)
    ∧ (∀ (m : Machine) (e : RegError),
        (get_psf_uninstall_entries m.uninstHKCU = .error e → main m = .error e)
        ∧ ((∃ l, get_psf_uninstall_entries m.uninstHKCU = .ok l) →
            get_psf_uninstall_entries m.uninstHKLM32 = .error e →
            main m = .error e)
        ∧ ((∃ l, get_psf_uninstall_entries m.uninstHKCU = .ok l) →
            (∃ l, get_psf_uninstall_entries m.uninstHKLM32 = .ok l) →
            get_psf_uninstall_entries m.uninstHKLM64 = .error e →
            main m = .error e))
    ∧ (∀ m : Machine,
        ((∃ e, get_psf_uninstall_entries m.uninstHKCU = .error e) ∨
          (∃ e, get_psf_uninstall_entries m.uninstHKLM32 = .error e) ∨
          (∃ e, get_psf_uninstall_entries m.uninstHKLM64 = .error e)) →
        ∃ e, main m = .error e) := by
  refine ⟨?_, ?_, ?_⟩
  · intro m h1 h2 h3 hs hp
    obtain ⟨l1, h1⟩ := h1
    obtain ⟨l2, h2⟩ := h2
    obtain ⟨l3, h3⟩ := h3
    have hst : ∃ o, runStore m.storeScan = .ok o := by
      rcases hs with h | ⟨l, h⟩
      · exact ⟨none, by simp [runStore, h]⟩
      · exact ⟨some l, by simp [runStore, h]⟩
    obtain ⟨o, hst⟩ := hst
    have hrun : ∀ root, (get_pep514_entries root = .error .fileNotFound ∨
        ∃ l, get_pep514_entries root = .ok l) → ∃ p, runPep root = .ok p := by
      intro root hr
      rcases hr with h | ⟨l, h⟩
      · exact ⟨none, by simp [runPep, h]⟩
      · exact ⟨some l, by simp [runPep, h]⟩
    obtain ⟨p1, hr1⟩ := hrun m.pyHKCU (hp m.pyHKCU (by simp))
    obtain ⟨p2, hr2⟩ := hrun m.pyHKLM32 (hp m.pyHKLM32 (by simp))
    obtain ⟨p3, hr3⟩ := hrun m.pyHKLM64 (hp m.pyHKLM64 (by simp))
    exact ⟨⟨(l1, l2, l3), o, (p1, p2, p3), get_path_entries m.fs m.pathVar⟩,
      by simp [main, h1, h2, h3, hst, hr1, hr2, hr3, Except.bind]⟩
  · intro m e
    refine ⟨?_, ?_, ?_⟩
    · intro he
      simp [main, he, Except.bind]
    · intro h1 he
      obtain ⟨l1, h1⟩ := h1
      simp [main, h1, he, Except.bind]
    · intro h1 h2 he
      obtain ⟨l1, h1⟩ := h1
      obtain ⟨l2, h2⟩ := h2
      simp [main, h1, h2, he, Except.bind]
  · intro m hv
    rcases hv with ⟨e, he⟩ | ⟨e, he⟩ | ⟨e, he⟩
    · exact ⟨e, by simp [main, he, Except.bind]⟩
    · cases hc1 : get_psf_uninstall_entries m.uninstHKCU with
      | error e1 => exact ⟨e1, by simp [main, hc1, Except.bind]⟩
      | ok l1 => exact ⟨e, by simp [main, hc1, he, Except.bind]⟩
    · cases hc1 : get_psf_uninstall_entries m.uninstHKCU with
      | error e1 => exact ⟨e1, by simp [main, hc1, Except.bind]⟩
      | ok l1 =>
        cases hc2 : get_psf_uninstall_entries m.uninstHKLM32 with
        | error e2 => exact ⟨e2, by simp [main, hc1, hc2, Except.bind]⟩
        | ok l2 => exact ⟨e, by simp [main, hc1, hc2, he, Except.bind]⟩

/-- Machine on which the `SOFTWARE\Python` root is absent for the HKLM 32-bit
view, the store scan fails with the caught permission error, and everything
else is present (and empty). -/
def machineMissingPythonRoot : Machine :=
  { uninstHKCU := some [],
    uninstHKLM32 := some [],
    uninstHKLM64 := some [],
    storeScan := .error .permissionError,
    pyHKCU := some [],
    pyHKLM32 := none,
    pyHKLM64 := some [],
    fs := fsEmpty,
    pathVar := [] }

/-- Machine on which only the HKLM 32-bit uninstall root is absent; every
other root is present (and empty) and every other channel healthy. -/
def machineMissingUninstall32 : Machine :=
  { uninstHKCU := some [],
    uninstHKLM32 := none,
    uninstHKLM64 := some [],
    storeScan := .ok [],
    pyHKCU := some [],
    pyHKLM32 := some [],
    pyHKLM64 := some [],
    fs := fsEmpty,
    pathVar := [] }

/-- Machine on which only the HKLM 64-bit uninstall root is absent; every
other root is present (and empty) and every other channel healthy. -/
def machineMissingUninstall64 : Machine :=
  { uninstHKCU := some [],
    uninstHKLM32 := some [],
    uninstHKLM64 := none,
    storeScan := .ok [],
    pyHKCU := some [],
    pyHKLM32 := some [],
    pyHKLM64 := some [],
    fs := fsEmpty,
    pathVar := [] }

/-- C1 witness: the amended theorem at concrete machines — with a missing
`SOFTWARE\Python` root for one view (and a store permission failure) the
report still completes, while a missing uninstall root for the HKCU view,
the HKLM 32-bit view or the HKLM 64-bit view each aborts the run with
`FileNotFoundError`. -/
theorem main_per_view_policy_witness :
    (∃ r, main machineMissingPythonRoot = .ok r)
    ∧ main machineMissingUninstallRoot = .error .fileNotFound
    ∧ main machineMissingUninstall32 = .error .fileNotFound
    ∧ main machineMissingUninstall64 = .error .fileNotFound
    ∧ (∃ e, main machineMissingUninstall32 = .error e) := by
  refine ⟨?_, ?_, ?_, ?_, ?_⟩
  · apply main_per_view_policy.1 machineMissingPythonRoot
      ⟨[], rfl⟩ ⟨[], rfl⟩ ⟨[], rfl⟩ (Or.inl rfl)
    intro root hroot
    simp only [machineMissingPythonRoot, List.mem_cons, List.mem_singleton,
      List.not_mem_nil, or_false] at hroot
    rcases hroot with rfl | rfl | rfl
    · exact Or.inr ⟨[], rfl⟩
    · exact Or.inl rfl
    · exact Or.inr ⟨[], rfl⟩
  · exact (main_per_view_policy.2.1 machineMissingUninstallRoot .fileNotFound).1 rfl
  · exact (main_per_view_policy.2.1 machineMissingUninstall32 .fileNotFound).2.1
      ⟨[], rfl⟩ rfl
  · exact (main_per_view_policy.2.1 machineMissingUninstall64 .fileNotFound).2.2
      ⟨[], rfl⟩ ⟨[], rfl⟩ rfl
  · exact main_per_view_policy.2.2 machineMissingUninstall32
      (Or.inr (Or.inl ⟨.fileNotFound, rfl⟩))

end Pywintrbl
